import Mathlib

/-!
Shallow embedding of the billing-state reconciliation engine of the
`bandldisposal` repository (Payload CMS collections).

The embedded code lives in:
* `src/collections/residential-billing.ts` — the `beforeChange`,
  `afterChange` and `afterDelete` hooks of the `residential-billing`
  collection (billing-record lifecycle and account-balance reconciliation);
* `src/unnamed/part_004` — the `CommercialAccounts` `beforeChange` hook
  (next-billing-date computation and payment-lateness derivation) and the
  `invoice-stripe` helpers (`createStripeInvoice`, `getInvoicePaymentLink`,
  `sendInvoiceEmail`);
* `src/collections/accounts-stripe-sync.ts` — the `Invoices`
  `beforeChange` hook (borough-scoped sequential invoice numbers).

Conventions of the embedding:
* JavaScript numbers that hold money are modelled as `Int` (the source
  only adds, subtracts, compares and applies `Math.max`).
* JavaScript `Date` instants are modelled as `Int` milliseconds since the
  epoch (the server is assumed to run in UTC, as the date strings the
  hooks produce and parse are UTC).  A calendar date denotes its midnight
  instant; `dayMs` is the length of one day.
* A JavaScript field that may be `undefined` is an `Option`; the JS
  idiom `x || 0` on a possibly-missing number is `jsNum`, and `x || d`
  on a number where `0` is falsy and replaced is `jsNumNZ`.
* Payload `group` fields (`billingInfo`, `paymentInfo`) are modelled as
  always-present records of optional fields; each carries an `extra`
  field standing for the remaining group fields, which the hooks copy
  via object spread (`{ ...account.billingInfo, ... }`).
-/

/-- One day in milliseconds (`1000 * 60 * 60 * 24` in the source). -/
def dayMs : Int := 86400000

/-- JS `x || 0` for a possibly-undefined number (`undefined → 0`; note a
present `0` is also falsy but `0 || 0 = 0`). -/
def jsNum (x : Option Int) : Int := x.getD 0

/-- JS `x || d` for a possibly-undefined number where both `undefined`
and `0` are falsy and fall back to `d` (used by `gracePeriodDays || 5`). -/
def jsNumNZ (x : Option Int) (d : Int) : Int :=
  match x with
  | none => d
  | some v => if v = 0 then d else v

/-- JS `a || b` on possibly-undefined non-numeric values (date strings:
`undefined` is falsy, any present date string is truthy). -/
def jsOrOpt (a b : Option Int) : Option Int :=
  match a with
  | some v => some v
  | none => b

/-- Billing-record status (`status` select field of `residential-billing`). -/
inductive BStatus where
  | pending
  | paid
  | overdue
  | cancelled
  deriving DecidableEq

/-- Account payment-lateness flag (`paymentInfo.isLate`). -/
inductive LStatus where
  | current
  | late
  deriving DecidableEq

/-- The `billingInfo` group of an account.  `extra` stands for the other
group fields, preserved by the spread `{ ...account.billingInfo }`. -/
structure BillingInfo where
  accountBalance : Option Int
  extra : Int
  deriving DecidableEq

/-- The `paymentInfo` group of an account.  `extra` stands for the other
group fields, preserved by the spread `{ ...account.paymentInfo }`. -/
structure PaymentInfo where
  lastPaymentDate : Option Int
  lastPaymentAmount : Option Int
  isLate : Option LStatus
  gracePeriodDays : Option Int
  extra : Int
  deriving DecidableEq

/-- An account document, restricted to the fields the billing hooks read
or write. -/
structure Account where
  billingInfo : BillingInfo
  paymentInfo : PaymentInfo
  deriving DecidableEq

/-- A `residential-billing` document, restricted to the fields the hooks
read.  `account` is the relationship value: `some id` models a string id,
`none` models a missing or populated (non-string) value, for which the
hooks return early. -/
structure BDoc where
  account : Option String
  amount : Option Int
  status : BStatus
  paidAmount : Option Int
  paidDate : Option Int
  dueDate : Option Int
  deriving DecidableEq

/-- The hook operation (`operation` argument of Payload hooks). -/
inductive Op where
  | create
  | update
  | delete
  deriving DecidableEq

/-- The new `accountBalance` computed by the `afterChange` hook of
`residential-billing.ts` (lines 80–147): the per-operation
`balanceChange`, then the paid-status adjustments of an update.
Translated branch by branch from the source:
* create: `balanceChange = doc.amount || 0`;
* update with a previous doc: `balanceChange = (doc.amount || 0) -
  (previousDoc.amount || 0)`;
* delete: `balanceChange = -(doc.amount || 0)` (dead in Payload, which
  routes deletes to `afterDelete`, but present in the source);
* transition into `paid`: subtract `paidAmount || amount || 0`, clamped
  at `0` via `Math.max`, and only when that settlement is `> 0`;
* transition out of `paid`: add back `previousDoc.paidAmount || 0` when
  it is `> 0`;
* `paid` to `paid`: subtract the paid-amount difference when nonzero,
  clamped at `0` via `Math.max`. -/
def newBalanceFun (bal : Int) (op : Op) (doc : BDoc) (prev : Option BDoc) : Int :=
  let balanceChange : Int :=
    match op, prev with
    | .create, _ => jsNum doc.amount
    | .update, some p => jsNum doc.amount - jsNum p.amount
    | .update, none => 0
    | .delete, _ => -(jsNum doc.amount)
  let nb := bal + balanceChange
  match op, prev with
  | .update, some p =>
    if doc.status = .paid ∧ p.status ≠ .paid then
      let settled := if jsNum doc.paidAmount = 0 then jsNum doc.amount else jsNum doc.paidAmount
      if settled > 0 then max 0 (nb - settled) else nb
    else if p.status = .paid ∧ doc.status ≠ .paid then
      if jsNum p.paidAmount > 0 then nb + jsNum p.paidAmount else nb
    else if doc.status = .paid ∧ p.status = .paid then
      let diff := jsNum doc.paidAmount - jsNum p.paidAmount
      if diff ≠ 0 then max 0 (nb - diff) else nb
    else nb
  | _, _ => nb

/-- The `paymentInfo` part of the `updateData` object built by
`afterChange` (lines 110–147): `none` when the hook leaves the
`paymentInfo` key unset at this point.  `today` is `new Date()` (its
date part, as the source stores `toISOString().split('T')[0]`). -/
def paymentInfoUpdate (today : Int) (acc : Account) (op : Op) (doc : BDoc)
    (prev : Option BDoc) : Option PaymentInfo :=
  match op, prev with
  | .update, some p =>
    if doc.status = .paid ∧ p.status ≠ .paid then
      let settled := if jsNum doc.paidAmount = 0 then jsNum doc.amount else jsNum doc.paidAmount
      some { acc.paymentInfo with
             lastPaymentDate := some (doc.paidDate.getD today)
             lastPaymentAmount := some settled }
    else if doc.status = .paid ∧ p.status = .paid ∧
        jsNum doc.paidAmount - jsNum p.paidAmount ≠ 0 ∧ jsNum doc.paidAmount > 0 then
      some { acc.paymentInfo with
             lastPaymentDate :=
               some ((jsOrOpt doc.paidDate acc.paymentInfo.lastPaymentDate).getD today)
             lastPaymentAmount := some (jsNum doc.paidAmount) }
    else none
  | _, _ => none

/-- The account produced by applying the `afterChange` hook's
`updateData` (lines 99–192), together with the flag telling whether the
hook also issued the `status: 'overdue'` write-back on the billing
record itself (lines 160–168).  `today` is the current instant
(`new Date()`, with time of day). -/
def afterChangeAccount (today : Int) (acc : Account) (op : Op) (doc : BDoc)
    (prev : Option BDoc) : Account × Bool :=
  let bal0 := jsNum acc.billingInfo.accountBalance
  let nb := newBalanceFun bal0 op doc prev
  let pInfo1 := paymentInfoUpdate today acc op doc prev
  -- lateness section (lines 149–185)
  let grace := jsNumNZ acc.paymentInfo.gracePeriodDays 5
  match doc.dueDate with
  | some dd =>
    if doc.status ≠ .paid ∧ doc.status ≠ .cancelled then
      let lateDate := dd + grace * dayMs
      let isOverdue := today > lateDate
      let overdueWrite := isOverdue ∧ doc.status = .pending
      let p2 := pInfo1.getD acc.paymentInfo
      let lastPay := jsOrOpt p2.lastPaymentDate acc.paymentInfo.lastPaymentDate
      let paymentWasLate :=
        match lastPay with
        | none => true
        | some v => decide (v < dd)
      let p3 :=
        if isOverdue ∧ nb > 0 then
          { p2 with isLate := some (if paymentWasLate then .late else .current) }
        else if nb ≤ 0 then { p2 with isLate := some .current }
        else p2
      (⟨{ acc.billingInfo with accountBalance := some nb }, p3⟩, decide overdueWrite)
    else
      (⟨{ acc.billingInfo with accountBalance := some nb }, pInfo1.getD acc.paymentInfo⟩, false)
  | none =>
    (⟨{ acc.billingInfo with accountBalance := some nb }, pInfo1.getD acc.paymentInfo⟩, false)

/-- Outcomes of the fallible calls the `afterChange` hook makes, one run
of the hook being determined by this environment:
* `overdueWriteFails` — the `status: 'overdue'` write-back on the
  billing record throws;
* `accountPersistFails` — `payload.update` on the `accounts` collection
  throws;
* `stripeCreateThrows` / `stripeCreateId` — `createStripeInvoice` throws
  (it re-throws Stripe errors), or returns `some id` / `none` (Stripe
  not configured or customer id missing);
* `stripeIdWriteFails` — the `stripeInvoiceId` write-back throws;
* `paymentLink` — `getInvoicePaymentLink` (it catches internally and
  never throws);
* `emailFails` / `emailRetryFails` — the first `sendInvoiceEmail` call,
  and the retry inside the `catch` block, throw. -/
structure HookEnv where
  overdueWriteFails : Bool
  accountPersistFails : Bool
  stripeCreateThrows : Bool
  stripeCreateId : Option String
  stripeIdWriteFails : Bool
  paymentLink : Option String
  emailFails : Bool
  emailRetryFails : Bool

/-- The observable outcome of one `afterChange` run:
* `hookThrows` — whether the hook lets an exception escape (which is
  what would make the triggering mutation fail at the caller);
* `accountWritten` — the account state persisted by the hook, `none`
  when the hook performed no account write (guard failed, lookup failed,
  or the write itself failed);
* `notifyAttempted` — whether the invoice-and-email block was entered;
* `recordMarkedOverdue` — whether the hook wrote `status: 'overdue'`
  back onto the billing record. -/
structure HookOutcome where
  hookThrows : Bool
  accountWritten : Option Account
  notifyAttempted : Bool
  recordMarkedOverdue : Bool
  deriving DecidableEq

/-- The `afterChange` hook of `residential-billing.ts` (lines 62–257),
as a function of the failure environment.  Control flow from the source:
early return when `doc.account` is not a string; early return when the
account is not found; the overdue write-back and the account update
happen inside the outer `try`, so a failure of either is caught by the
outer `catch` (which logs and does not re-throw: "Don't throw - billing
record should still be saved"); the notification block runs only for
`operation === 'create' && doc.status !== 'cancelled'`, inside its own
`try`/`catch` whose `catch` tries a bare `sendInvoiceEmail` guarded by a
further `try`/`catch`.  No path re-throws, so `hookThrows` is always
`false`. -/
def afterChangeHook (env : HookEnv) (lookup : String → Option Account)
    (today : Int) (op : Op) (doc : BDoc) (prev : Option BDoc) : HookOutcome :=
  match doc.account with
  | none => ⟨false, none, false, false⟩
  | some aid =>
    match lookup aid with
    | none => ⟨false, none, false, false⟩
    | some acc =>
      let ar := afterChangeAccount today acc op doc prev
      if ar.2 ∧ env.overdueWriteFails then
        -- the record write-back threw before the account update
        ⟨false, none, false, false⟩
      else if env.accountPersistFails then
        -- payload.update on the account threw; caught by the outer catch
        ⟨false, none, false, ar.2⟩
      else if op = .create ∧ doc.status ≠ .cancelled then
        -- notification block: every failure is absorbed
        ⟨false, some ar.1, true, ar.2⟩
      else
        ⟨false, some ar.1, false, ar.2⟩

/-- The `afterDelete` hook of `residential-billing.ts` (lines 258–293):
for a string account reference naming an existing account it persists
`billingInfo.accountBalance := balance - (doc.amount || 0)` (no clamp,
for every record status) and touches nothing else; the write is inside a
`try`/`catch`, so a persistence failure is logged and swallowed. -/
def afterDeleteHook (persistFails : Bool) (lookup : String → Option Account)
    (doc : BDoc) : Option Account :=
  match doc.account with
  | none => none
  | some aid =>
    match lookup aid with
    | none => none
    | some acc =>
      if persistFails then none
      else
        some { acc with
               billingInfo :=
                 { acc.billingInfo with
                   accountBalance :=
                     some (jsNum acc.billingInfo.accountBalance - jsNum doc.amount) } }

/-- The mutable `data` seen by the `beforeChange` hook of
`residential-billing.ts`, restricted to the fields it touches. -/
structure BDraft where
  billingNumber : Option (List Char)
  amount : Option Int
  billingDate : Option Int
  dueDate : Option Int
  status : Option BStatus
  deriving DecidableEq

/-- Floor an instant to the midnight that starts its UTC day
(`setHours(0,0,0,0)` on a UTC server). -/
def midnightOf (t : Int) : Int := (Int.ediv t dayMs) * dayMs

/-- Digits of `n` in base 10 (`String(n)` in the source). -/
def natDigits (n : Nat) : List Char := Nat.toDigits 10 n

/-- `String(n).padStart(width, '0')` from the source. -/
def zeroPad (n : Nat) (width : Nat) : List Char :=
  List.replicate (width - (natDigits n).length) '0' ++ natDigits n

/-- The `beforeChange` hook of `residential-billing.ts` (lines 29–58).
`count` is `payload.count({ collection: 'residential-billing' }).totalDocs`
at the time of the hook; `today` is the current instant.  Steps from the
source: auto-generate `billingNumber` on create; default `dueDate` to
`billingDate + 30 days` (a midnight instant stays a midnight instant,
`toISOString().split('T')[0]`); auto-set `status` to `overdue` when the
due date (both sides floored to midnight) has strictly passed and the
status is unset or `pending`. -/
def beforeChangeResidential (count : Nat) (today : Int) (op : Op) (data : BDraft) : BDraft :=
  let d1 :=
    if op = .create ∧ data.billingNumber = none then
      { data with billingNumber := some ("BILL-".toList ++ zeroPad (count + 1) 6) }
    else data
  let d2 :=
    match d1.billingDate, d1.dueDate with
    | some bd, none => { d1 with dueDate := some (bd + 30 * dayMs) }
    | _, _ => d1
  match d2.dueDate with
  | some dd =>
    if d2.status ≠ some .paid ∧ d2.status ≠ some .cancelled then
      if midnightOf today > midnightOf dd ∧ (d2.status = none ∨ d2.status = some .pending) then
        { d2 with status := some .overdue }
      else d2
    else d2
  | none => d2

/-- The payment-lateness derivation of the `CommercialAccounts`
`beforeChange` hook (`src/unnamed/part_004`, lines 178–209), for the
case where `billingInfo.nextBillingDate` is present (`nbd`).  From the
source: when `accountBalance > 0`, `isLate` is set to `'late'` exactly
when `today > nextBillingDate + (gracePeriodDays || 5) days` and the
last payment is absent or strictly before `nextBillingDate`; when the
balance is `≤ 0`, `isLate` is set to `'current'`.  (When
`nextBillingDate` is absent and the balance is positive the source
leaves `isLate` untouched; that case is outside this function, whose
`nbd` argument is the present date.) -/
def commercialIsLate (nbd : Int) (grace : Option Int) (bal : Int)
    (lastPaymentDate : Option Int) (today : Int) : LStatus :=
  if bal > 0 then
    let lateDate := nbd + jsNumNZ grace 5 * dayMs
    let paymentWasLate :=
      match lastPaymentDate with
      | none => true
      | some v => decide (v < nbd)
    if today > lateDate ∧ bal > 0 ∧ paymentWasLate = true then .late else .current
  else .current

/-- Modelled from the claim's words (C3), not from the source: `late`
iff `accountBalance > 0` and the reference time is strictly after
`nextBillingDate + gracePeriodDays` and (`lastPaymentDate` absent or
`< nextBillingDate`); `current` otherwise.  Used to compare the spec's
reading against `commercialIsLate`. -/
def claimLateness (nbd : Int) (grace : Int) (bal : Int)
    (lastPaymentDate : Option Int) (today : Int) : LStatus :=
  if bal > 0 ∧ today > nbd + grace * dayMs ∧
      (match lastPaymentDate with
       | none => true
       | some v => decide (v < nbd)) = true
  then .late else .current

/-- `pat` is a leading segment of `s` (JS `String.prototype.startsWith`,
over strings as character lists). -/
def startsWithL : List Char → List Char → Bool
  | [], _ => true
  | _ :: _, [] => false
  | c :: cs, d :: ds => c = d && startsWithL cs ds

/-- `pat` occurs contiguously somewhere in `s` (JS
`contains` / `String.prototype.includes`, over character lists). -/
def containsSub (pat : List Char) : List Char → Bool
  | [] => pat.isEmpty
  | d :: ds => startsWithL pat (d :: ds) || containsSub pat ds

/-- The `billingNumber` generated by the `beforeChange` hook of
`residential-billing.ts` (lines 31–36): `'BILL-' +
String(count.totalDocs + 1).padStart(6, '0')` where `totalDocs` counts
the whole collection. -/
def nextBillingNumber (totalDocs : Nat) : List Char :=
  "BILL-".toList ++ zeroPad (totalDocs + 1) 6

/-- The borough-scoped invoice number generated by the `Invoices`
`beforeChange` hook (`accounts-stripe-sync.ts`, lines 195–223):
`find` the invoices whose `invoiceNumber` contains the borough `code`
(capped at `limit: 1000` results), keep those that start with
`code + '-'`, and return `code + '-' + String(n + 1).padStart(6, '0')`
for `n` the number kept.  `existing` is the list of stored invoice
numbers the query ranges over. -/
def nextInvoiceNumber (code : List Char) (existing : List (List Char)) : List Char :=
  code ++ ['-'] ++
    zeroPad
      ((((existing.filter (fun s => containsSub code s)).take 1000).filter
          (fun s => startsWithL (code ++ ['-']) s)).length + 1) 6

/-- Modelled from the claim's words (C9): the invoice number is the
borough code, a dash, and the zero-padded successor of the count of
existing invoice numbers carrying that prefix. -/
def claimInvoiceNumber (code : List Char) (existing : List (List Char)) : List Char :=
  code ++ ['-'] ++ zeroPad ((existing.filter (fun s => startsWithL (code ++ ['-']) s)).length + 1) 6

/-- A calendar date, as the `CommercialAccounts` next-billing-date code
manipulates one through a JS `Date` (year / month 1–12 / day-of-month).
Values produced by `normDay` are normalized; raw field updates (JS
`setDate`, `setMonth`, `setFullYear`) may leave out-of-range components,
which JS normalizes by rolling into the following months — `normDay` and
`normMonth` reproduce that rolling. -/
structure Date3 where
  year : Int
  month : Nat
  day : Nat
  deriving DecidableEq

/-- Gregorian leap year (what JS `Date` implements). -/
def isLeap (y : Int) : Bool := (y % 4 = 0 && y % 100 ≠ 0) || y % 400 = 0

/-- Length of month `m` of year `y` (months `1`–`12`). -/
def daysInMonth (y : Int) (m : Nat) : Nat :=
  match m with
  | 1 => 31
  | 2 => if isLeap y then 29 else 28
  | 3 => 31
  | 4 => 30
  | 5 => 31
  | 6 => 30
  | 7 => 31
  | 8 => 31
  | 9 => 30
  | 10 => 31
  | 11 => 30
  | 12 => 31
  | _ => 31

theorem daysInMonth_pos (y : Int) (m : Nat) : 0 < daysInMonth y m := by
  unfold daysInMonth
  split <;> first | decide | split <;> decide

theorem daysInMonth_le (y : Int) (m : Nat) : daysInMonth y m ≤ 31 := by
  unfold daysInMonth
  split <;> first | decide | split <;> decide

/-- Roll a month overflow into the next year (adequate for the month
values `≤ 24` arising here, which JS normalizes the same way). -/
def normMonth (y : Int) (m : Nat) : Int × Nat :=
  if m > 12 then (y + 1, m - 12) else (y, m)

/-- Roll a day-of-month overflow forward through the following months,
as a JS `Date` does when `setDate` / `setMonth` leaves `day` beyond the
month's length (e.g. April 31 becomes May 1). -/
def normDay (y : Int) (m : Nat) (d : Nat) : Date3 :=
  if h : daysInMonth y m < d then
    let p := normMonth y (m + 1)
    normDay p.1 p.2 (d - daysInMonth y m)
  else ⟨y, m, d⟩
termination_by d
decreasing_by
  exact Nat.sub_lt (Nat.lt_of_lt_of_le (daysInMonth_pos y m) (Nat.le_of_lt h))
    (daysInMonth_pos y m)

/-- Strict lexicographic order on calendar dates.  Within the
next-billing-date code every `Date` in play carries the same time of
day (each is a mutated copy of `today`), so the source's full-timestamp
comparison `nextBilling < today` coincides with this date order. -/
def dateLt (a b : Date3) : Prop :=
  a.year < b.year ∨ (a.year = b.year ∧
    (a.month < b.month ∨ (a.month = b.month ∧ a.day < b.day)))

instance (a b : Date3) : Decidable (dateLt a b) := by
  unfold dateLt
  infer_instance

/-- Billing cadence values taking the monthly/quarterly/annually branch
of the `CommercialAccounts` `beforeChange` hook. -/
inductive CadenceMQA where
  | monthly
  | quarterly
  | annually
  deriving DecidableEq

/-- JS `nextBilling.setDate(billingDate)`: set the day-of-month in the
month containing `t`, normalizing an overflow forward. -/
def setDayOfMonth (t : Date3) (d : Nat) : Date3 := normDay t.year t.month d

/-- The `switch (cadence)` advance of the hook: `setMonth(+1)`,
`setMonth(+3)` or `setFullYear(+1)`, each keeping the day-of-month and
letting JS normalize an overflow forward. -/
def advanceCadence (c : CadenceMQA) (b : Date3) : Date3 :=
  match c with
  | .monthly => let p := normMonth b.year (b.month + 1); normDay p.1 p.2 b.day
  | .quarterly => let p := normMonth b.year (b.month + 3); normDay p.1 p.2 b.day
  | .annually => normDay (b.year + 1) b.month b.day

/-- The monthly/quarterly/annually branch of the next-billing-date
computation in the `CommercialAccounts` `beforeChange` hook
(`src/unnamed/part_004`, lines 125–176): set the day-of-month to
`billingDayOfMonth` in the month containing `today`; if the result is
strictly before `today`, advance by one cadence period. -/
def nextBillingDateMQA (c : CadenceMQA) (billingDayOfMonth : Nat) (today : Date3) : Date3 :=
  let base := setDayOfMonth today billingDayOfMonth
  if dateLt base today then advanceCadence c base else base

/-- `today` is a well-formed calendar date. -/
def validDate (t : Date3) : Prop :=
  1 ≤ t.month ∧ t.month ≤ 12 ∧ 1 ≤ t.day ∧ t.day ≤ daysInMonth t.year t.month

instance (t : Date3) : Decidable (validDate t) := by
  unfold validDate
  infer_instance

/-- Days in the months of year `y` strictly before month `m`. -/
def daysBeforeMonth (y : Int) : Nat → Nat
  | 0 => 0
  | 1 => 0
  | m + 1 => daysBeforeMonth y m + daysInMonth y m

/-- Leap years in `[0, y)`, for `y ≥ 1` (year 0 is leap). -/
def leapsBefore (y : Int) : Int :=
  Int.ediv (y - 1) 4 - Int.ediv (y - 1) 100 + Int.ediv (y - 1) 400 + 1

/-- Absolute day index of a date in the proleptic Gregorian calendar
(day 0 = January 1 of year 0); used only to express concrete calendar
dates as instants. -/
def dateToAbs (d : Date3) : Int :=
  365 * d.year + leapsBefore d.year + (daysBeforeMonth d.year d.month : Int) + (d.day : Int) - 1

/-- The midnight instant of a calendar date, in the `Int`-milliseconds
time scale of the hook embeddings. -/
def dateToInstant (d : Date3) : Int := dateToAbs d * dayMs

/-- A billing-record lifecycle event, as received by the hooks: the
collection persists the record change, then `afterChange` /
`afterDelete` reconciles the owning account. -/
inductive Ev where
  | create (id : Nat) (doc : BDoc)
  | update (id : Nat) (doc : BDoc)
  | delete (id : Nat)

/-- Joint state of one account's balance and the stored billing
records (an association list keyed by record id). -/
structure LedgerSt where
  balance : Int
  records : List (Nat × BDoc)

/-- Look up the stored record with key `id`. -/
def findRec (id : Nat) : List (Nat × BDoc) → Option BDoc
  | [] => none
  | (j, b) :: t => if j = id then some b else findRec id t

/-- Replace the stored record with key `id`. -/
def setRec (id : Nat) (doc : BDoc) : List (Nat × BDoc) → List (Nat × BDoc)
  | [] => []
  | (j, b) :: t => if j = id then (id, doc) :: setRec id doc t else (j, b) :: setRec id doc t

/-- Remove the stored record with key `id`. -/
def removeRec (id : Nat) : List (Nat × BDoc) → List (Nat × BDoc)
  | [] => []
  | (j, b) :: t => if j = id then removeRec id t else (j, b) :: removeRec id t

/-- One reconciliation step for the account with id `aid`: the record
store changes as the mutation dictates, and the balance changes as the
`afterChange` / `afterDelete` hooks compute it (`newBalanceFun` for
create/update, `balance - (doc.amount || 0)` for delete), provided the
record references `aid` — a record with no (or another) account
reference leaves this account's balance alone, exactly as the hooks'
early return does.  The hook's overdue write-back on the record is not
modelled here: it changes a record's status `pending → overdue`, which
alters neither the balance nor any record's ledger contribution. -/
def stepEv (aid : String) (s : LedgerSt) : Ev → LedgerSt
  | .create id doc =>
    match findRec id s.records with
    | some _ => s
    | none =>
      { balance :=
          if doc.account = some aid then newBalanceFun s.balance .create doc none
          else s.balance
        records := (id, doc) :: s.records }
  | .update id doc =>
    match findRec id s.records with
    | none => s
    | some old =>
      { balance :=
          if doc.account = some aid then newBalanceFun s.balance .update doc (some old)
          else s.balance
        records := setRec id doc s.records }
  | .delete id =>
    match findRec id s.records with
    | none => s
    | some old =>
      { balance :=
          if old.account = some aid then s.balance - jsNum old.amount
          else s.balance
        records := removeRec id s.records }

/-- Replay a sequence of events from a state. -/
def runEv (aid : String) (s : LedgerSt) : List Ev → LedgerSt
  | [] => s
  | e :: es => runEv aid (stepEv aid s e) es

/-- The contribution of one stored record to the account `aid`'s
independently recomputed balance, as the claim states it: `+amount`
while the record exists, additionally `-paidAmount` once it is paid. -/
def contrib (aid : String) (doc : BDoc) : Int :=
  if doc.account = some aid then
    jsNum doc.amount - (if doc.status = .paid then jsNum doc.paidAmount else 0)
  else 0

/-- The account balance recomputed independently from the record store. -/
def ledgerSum (aid : String) (l : List (Nat × BDoc)) : Int :=
  (l.map (fun p => contrib aid p.2)).sum

/-- The initial state: fresh account, no records, zero balance. -/
def initSt : LedgerSt := ⟨0, []⟩

/-- Side conditions on one event under which the hook's running-ledger
update agrees with the independent recomputation (the amendment of C1):
* create — the record references the account and is not created already
  `paid` (a `paid` create adds `amount` to the balance but contributes
  `amount - paidAmount`);
* update — old and new doc reference the account; a transition into
  `paid` carries an explicit positive `paidAmount` (else the hook
  settles `amount` while the stored `paidAmount` stays 0) and does not
  drive the balance below zero (else `Math.max(0, ...)` clamps); a
  transition out of `paid` leaves behind a non-negative `paidAmount`
  (the field's `min: 0` validation; the hook adds it back only when
  positive); a `paid`-to-`paid` change must not trigger the clamp;
* delete — the record is not `paid` (the hook subtracts only `amount`,
  stranding the `-paidAmount` contribution). -/
def stepOkB (aid : String) (s : LedgerSt) : Ev → Bool
  | .create _ doc =>
    decide (doc.account = some aid) && !(decide (doc.status = BStatus.paid))
  | .update id doc =>
    match findRec id s.records with
    | none => true
    | some old =>
      decide (doc.account = some aid) && decide (old.account = some aid) &&
      (if doc.status = .paid ∧ old.status ≠ .paid then
        decide (0 < jsNum doc.paidAmount) &&
        decide (0 ≤ s.balance + (jsNum doc.amount - jsNum old.amount) - jsNum doc.paidAmount)
      else if old.status = .paid ∧ doc.status ≠ .paid then
        -- the `min: 0` validation of the `paidAmount` field
        decide (0 ≤ jsNum old.paidAmount)
      else if doc.status = .paid ∧ old.status = .paid then
        decide (jsNum doc.paidAmount - jsNum old.paidAmount = 0) ||
        decide (0 ≤ s.balance + (jsNum doc.amount - jsNum old.amount) -
          (jsNum doc.paidAmount - jsNum old.paidAmount))
      else true)
  | .delete id =>
    match findRec id s.records with
    | none => true
    | some old => !(decide (old.status = BStatus.paid))

/-- All events of the sequence satisfy their side conditions along the
actual run. -/
def okRunB (aid : String) (s : LedgerSt) : List Ev → Bool
  | [] => true
  | e :: es => stepOkB aid s e && okRunB aid (stepEv aid s e) es

/-- Stored record ids are pairwise distinct (holds along every run from
`initSt`, since `stepEv` only inserts fresh ids). -/
def keysNodup (l : List (Nat × BDoc)) : Prop := (l.map Prod.fst).Nodup


theorem findRec_none_not_mem {id : Nat} {l : List (Nat × BDoc)}
    (h : findRec id l = none) : ∀ p ∈ l, p.1 ≠ id := by
  induction l with
  | nil => intro p hp; cases hp
  | cons q t ih =>
    obtain ⟨j, b⟩ := q
    intro p hp
    by_cases hj : j = id
    · simp [findRec, hj] at h
    · rcases List.mem_cons.mp hp with hp | hp
      · subst hp; exact hj
      · exact ih (by simpa [findRec, hj] using h) p hp

theorem setRec_of_not_mem {id : Nat} {doc : BDoc} : {l : List (Nat × BDoc)} →
    (h : ∀ p ∈ l, p.1 ≠ id) → setRec id doc l = l
  | [], _ => rfl
  | (j, b) :: t, h => by
    have hj : ¬ j = id := h (j, b) (List.mem_cons_self _ _)
    simp [setRec, hj, setRec_of_not_mem (fun p hp => h p (List.mem_cons_of_mem _ hp))]

theorem removeRec_of_not_mem {id : Nat} : {l : List (Nat × BDoc)} →
    (h : ∀ p ∈ l, p.1 ≠ id) → removeRec id l = l
  | [], _ => rfl
  | (j, b) :: t, h => by
    have hj : ¬ j = id := h (j, b) (List.mem_cons_self _ _)
    simp [removeRec, hj, removeRec_of_not_mem (fun p hp => h p (List.mem_cons_of_mem _ hp))]

theorem removeRec_mem {id : Nat} : {l : List (Nat × BDoc)} → {p : Nat × BDoc} →
    p ∈ removeRec id l → p ∈ l
  | [], _, hp => by cases hp
  | (j, b) :: t, p, hp => by
    by_cases hj : j = id
    · simp only [removeRec, if_pos hj] at hp
      exact List.mem_cons_of_mem _ (removeRec_mem hp)
    · simp only [removeRec, if_neg hj] at hp
      rcases List.mem_cons.mp hp with hp | hp
      · exact hp ▸ List.mem_cons_self _ _
      · exact List.mem_cons_of_mem _ (removeRec_mem hp)

theorem not_mem_of_keys_nodup {q : Nat × BDoc} {t : List (Nat × BDoc)}
    (h : keysNodup (q :: t)) : ∀ p ∈ t, p.1 ≠ q.1 := by
  unfold keysNodup at h
  rw [List.map_cons, List.nodup_cons] at h
  intro p hp hc
  exact h.1 (hc ▸ List.mem_map_of_mem Prod.fst hp)

theorem keys_nodup_tail {q : Nat × BDoc} {t : List (Nat × BDoc)}
    (h : keysNodup (q :: t)) : keysNodup t := by
  unfold keysNodup at h ⊢
  rw [List.map_cons, List.nodup_cons] at h
  exact h.2

theorem ledgerSum_setRec {aid : String} {id : Nat} {doc : BDoc} :
    {l : List (Nat × BDoc)} → {old : BDoc} → keysNodup l → findRec id l = some old →
    ledgerSum aid (setRec id doc l) = ledgerSum aid l + contrib aid doc - contrib aid old
  | [], old, _, hf => by simp [findRec] at hf
  | (j, b) :: t, old, hn, hf => by
    by_cases hj : j = id
    · have hb : b = old := by simpa [findRec, hj] using hf
      subst hb
      have hnm : ∀ p ∈ t, p.1 ≠ id := fun p hp => hj ▸ not_mem_of_keys_nodup hn p hp
      rw [show setRec id doc ((j, b) :: t) = (id, doc) :: t by
        simp [setRec, hj, setRec_of_not_mem hnm]]
      simp only [ledgerSum, List.map_cons, List.sum_cons]
      ring
    · have hf' : findRec id t = some old := by simpa [findRec, hj] using hf
      have ihr := @ledgerSum_setRec aid id doc t old (keys_nodup_tail hn) hf'
      rw [show setRec id doc ((j, b) :: t) = (j, b) :: setRec id doc t by simp [setRec, hj]]
      simp only [ledgerSum, List.map_cons, List.sum_cons] at ihr ⊢
      rw [ihr]
      ring

theorem ledgerSum_removeRec {aid : String} {id : Nat} :
    {l : List (Nat × BDoc)} → {old : BDoc} → keysNodup l → findRec id l = some old →
    ledgerSum aid (removeRec id l) = ledgerSum aid l - contrib aid old
  | [], old, _, hf => by simp [findRec] at hf
  | (j, b) :: t, old, hn, hf => by
    by_cases hj : j = id
    · have hb : b = old := by simpa [findRec, hj] using hf
      subst hb
      have hnm : ∀ p ∈ t, p.1 ≠ id := fun p hp => hj ▸ not_mem_of_keys_nodup hn p hp
      rw [show removeRec id ((j, b) :: t) = t by simp [removeRec, hj, removeRec_of_not_mem hnm]]
      simp only [ledgerSum, List.map_cons, List.sum_cons]
      ring
    · have hf' : findRec id t = some old := by simpa [findRec, hj] using hf
      have ihr := @ledgerSum_removeRec aid id t old (keys_nodup_tail hn) hf'
      rw [show removeRec id ((j, b) :: t) = (j, b) :: removeRec id t by simp [removeRec, hj]]
      simp only [ledgerSum, List.map_cons, List.sum_cons] at ihr ⊢
      rw [ihr]
      ring

theorem setRec_keys {id : Nat} {doc : BDoc} : (l : List (Nat × BDoc)) →
    (setRec id doc l).map Prod.fst = l.map Prod.fst
  | [] => rfl
  | (j, b) :: t => by
    by_cases hj : j = id
    · simp [setRec, hj, setRec_keys t]
    · simp [setRec, hj, setRec_keys t]

theorem keysNodup_setRec {id : Nat} {doc : BDoc} {l : List (Nat × BDoc)}
    (hn : keysNodup l) : keysNodup (setRec id doc l) := by
  unfold keysNodup at hn ⊢
  rw [setRec_keys l]
  exact hn

theorem keysNodup_removeRec {id : Nat} : {l : List (Nat × BDoc)} →
    keysNodup l → keysNodup (removeRec id l)
  | [], hn => hn
  | (j, b) :: t, hn => by
    have ht := keys_nodup_tail hn
    by_cases hj : j = id
    · simpa [removeRec, hj] using keysNodup_removeRec ht
    · rw [show removeRec id ((j, b) :: t) = (j, b) :: removeRec id t by simp [removeRec, hj]]
      unfold keysNodup
      rw [List.map_cons, List.nodup_cons]
      refine ⟨?_, keysNodup_removeRec ht⟩
      intro hmem
      rcases List.mem_map.mp hmem with ⟨p, hp, hfst⟩
      unfold keysNodup at hn
      rw [List.map_cons, List.nodup_cons] at hn
      exact hn.1 (hfst ▸ List.mem_map_of_mem Prod.fst (removeRec_mem hp))

theorem keysNodup_cons_fresh {id : Nat} {doc : BDoc} {l : List (Nat × BDoc)}
    (hn : keysNodup l) (hf : findRec id l = none) : keysNodup ((id, doc) :: l) := by
  unfold keysNodup at hn ⊢
  rw [List.map_cons, List.nodup_cons]
  refine ⟨?_, hn⟩
  intro hmem
  rcases List.mem_map.mp hmem with ⟨p, hp, hfst⟩
  exact findRec_none_not_mem hf p hp hfst

theorem stepEv_preserves (aid : String) (s : LedgerSt) (e : Ev)
    (hn : keysNodup s.records) (hb : s.balance = ledgerSum aid s.records)
    (hok : stepOkB aid s e = true) :
    keysNodup (stepEv aid s e).records ∧
      (stepEv aid s e).balance = ledgerSum aid (stepEv aid s e).records := by
  cases e with
  | create id doc =>
    simp only [stepOkB, Bool.and_eq_true, decide_eq_true_eq, Bool.not_eq_true',
      decide_eq_false_iff_not] at hok
    obtain ⟨hacc, hst⟩ := hok
    simp only [stepEv]
    cases hfind : findRec id s.records with
    | some b => exact ⟨hn, hb⟩
    | none =>
      refine ⟨keysNodup_cons_fresh hn hfind, ?_⟩
      simp only [if_pos hacc]
      have hbal : newBalanceFun s.balance .create doc none = s.balance + jsNum doc.amount := by
        simp [newBalanceFun]
      rw [hbal]
      simp only [ledgerSum, List.map_cons, List.sum_cons]
      have hc : contrib aid doc = jsNum doc.amount := by
        simp [contrib, hacc, hst]
      rw [show (List.map (fun p => contrib aid p.2) s.records).sum = ledgerSum aid s.records
        from rfl, hc]
      omega
  | update id doc =>
    simp only [stepEv]
    cases hfind : findRec id s.records with
    | none => exact ⟨hn, hb⟩
    | some old =>
      simp only [stepOkB, hfind, Bool.and_eq_true, decide_eq_true_eq] at hok
      obtain ⟨⟨hacc, hacco⟩, hcond⟩ := hok
      refine ⟨keysNodup_setRec hn, ?_⟩
      rw [ledgerSum_setRec hn hfind]
      dsimp only
      rw [if_pos hacc, ← hb]
      by_cases h1 : doc.status = .paid ∧ old.status ≠ .paid
      · rw [if_pos h1] at hcond
        simp only [Bool.and_eq_true, decide_eq_true_eq] at hcond
        obtain ⟨hpa, hnc⟩ := hcond
        have hpane : ¬ (jsNum doc.paidAmount = 0) := by omega
        have hbal : newBalanceFun s.balance .update doc (some old) =
            s.balance + (jsNum doc.amount - jsNum old.amount) - jsNum doc.paidAmount := by
          simp only [newBalanceFun, if_pos h1, if_neg hpane]
          rw [if_pos (by omega : jsNum doc.paidAmount > 0)]
          omega
        rw [hbal]
        have hcd : contrib aid doc = jsNum doc.amount - jsNum doc.paidAmount := by
          simp [contrib, hacc, h1.1]
        have hco : contrib aid old = jsNum old.amount := by
          simp [contrib, hacco, h1.2]
        omega
      · rw [if_neg h1] at hcond
        by_cases h2 : old.status = .paid ∧ doc.status ≠ .paid
        · rw [if_pos h2] at hcond
          simp only [decide_eq_true_eq] at hcond
          have hcd : contrib aid doc = jsNum doc.amount := by
            simp [contrib, hacc, h2.2]
          have hco : contrib aid old = jsNum old.amount - jsNum old.paidAmount := by
            simp [contrib, hacco, h2.1]
          by_cases hpp : jsNum old.paidAmount > 0
          · have hbal : newBalanceFun s.balance .update doc (some old) =
                s.balance + (jsNum doc.amount - jsNum old.amount) + jsNum old.paidAmount := by
              simp only [newBalanceFun, if_neg h1, if_pos h2, if_pos hpp]
            rw [hbal]
            omega
          · have hz : jsNum old.paidAmount = 0 := by omega
            have hbal : newBalanceFun s.balance .update doc (some old) =
                s.balance + (jsNum doc.amount - jsNum old.amount) := by
              simp only [newBalanceFun, if_neg h1, if_pos h2, if_neg hpp]
            rw [hbal]
            omega
        · rw [if_neg h2] at hcond
          by_cases h3 : doc.status = .paid ∧ old.status = .paid
          · rw [if_pos h3] at hcond
            simp only [Bool.or_eq_true, decide_eq_true_eq] at hcond
            have hcd : contrib aid doc = jsNum doc.amount - jsNum doc.paidAmount := by
              simp [contrib, hacc, h3.1]
            have hco : contrib aid old = jsNum old.amount - jsNum old.paidAmount := by
              simp [contrib, hacco, h3.2]
            by_cases hd : jsNum doc.paidAmount - jsNum old.paidAmount = 0
            · have hbal : newBalanceFun s.balance .update doc (some old) =
                  s.balance + (jsNum doc.amount - jsNum old.amount) := by
                simp only [newBalanceFun, if_neg h1, if_neg h2, if_pos h3]
                rw [if_neg (by omega : ¬ jsNum doc.paidAmount - jsNum old.paidAmount ≠ 0)]
              rw [hbal]
              omega
            · have hnc : 0 ≤ s.balance + (jsNum doc.amount - jsNum old.amount) -
                  (jsNum doc.paidAmount - jsNum old.paidAmount) := by
                rcases hcond with hcond | hcond
                · exact absurd hcond hd
                · exact hcond
              have hbal : newBalanceFun s.balance .update doc (some old) =
                  s.balance + (jsNum doc.amount - jsNum old.amount) -
                    (jsNum doc.paidAmount - jsNum old.paidAmount) := by
                simp only [newBalanceFun, if_neg h1, if_neg h2, if_pos h3]
                rw [if_pos hd]
                omega
              rw [hbal]
              omega
          · -- both statuses non-paid
            have hds : doc.status ≠ .paid := by
              intro hc
              rcases Decidable.em (old.status = .paid) with ho | ho
              · exact h3 ⟨hc, ho⟩
              · exact h1 ⟨hc, ho⟩
            have hos : old.status ≠ .paid := by
              intro hc
              exact h2 ⟨hc, hds⟩
            have hbal : newBalanceFun s.balance .update doc (some old) =
                s.balance + (jsNum doc.amount - jsNum old.amount) := by
              simp only [newBalanceFun, if_neg h1, if_neg h2, if_neg h3]
            have hcd : contrib aid doc = jsNum doc.amount := by
              simp [contrib, hacc, hds]
            have hco : contrib aid old = jsNum old.amount := by
              simp [contrib, hacco, hos]
            rw [hbal]
            omega
  | delete id =>
    simp only [stepEv]
    cases hfind : findRec id s.records with
    | none => exact ⟨hn, hb⟩
    | some old =>
      simp only [stepOkB, hfind, Bool.not_eq_true', decide_eq_false_iff_not] at hok
      refine ⟨keysNodup_removeRec hn, ?_⟩
      rw [ledgerSum_removeRec hn hfind, ← hb]
      dsimp only
      by_cases hacco : old.account = some aid
      · rw [if_pos hacco]
        have hco : contrib aid old = jsNum old.amount := by
          simp [contrib, hacco, hok]
        omega
      · rw [if_neg hacco]
        have hco : contrib aid old = 0 := by
          simp [contrib, hacco]
        omega

theorem ledger_invariant_run (aid : String) : (evs : List Ev) → (s : LedgerSt) →
    keysNodup s.records → s.balance = ledgerSum aid s.records → okRunB aid s evs = true →
    keysNodup (runEv aid s evs).records ∧
      (runEv aid s evs).balance = ledgerSum aid (runEv aid s evs).records
  | [], s, hn, hb, _ => ⟨hn, hb⟩
  | e :: es, s, hn, hb, hok => by
    rw [okRunB, Bool.and_eq_true] at hok
    have hstep := stepEv_preserves aid s e hn hb hok.1
    exact ledger_invariant_run aid es (stepEv aid s e) hstep.1 hstep.2 hok.2

/-- A pending billing record of amount 50 for account `"a"`. -/
def docPending50 : BDoc :=
  ⟨some "a", some 50, .pending, none, none, none⟩

/-- The same record marked `paid` with an explicit `paidAmount` of 30
(settlement within the running balance — no clamp). -/
def docPaid30 : BDoc :=
  ⟨some "a", some 50, .paid, some 30, none, none⟩

/-- The same record marked `paid` with `paidAmount = 75`, exceeding the
running balance of 50 — the hook's `Math.max(0, ...)` clamps. -/
def docPaid75 : BDoc :=
  ⟨some "a", some 50, .paid, some 75, none, none⟩

/-- C1 (amended): for every finite sequence of create/update/delete
events on one account's billing records, the balance the `afterChange` /
`afterDelete` hooks maintain equals the sum recomputed independently
from the event log (each live record contributing `+amount`, and
`-paidAmount` once paid) — provided each event satisfies `stepOkB`:
records are not created already `paid`, transitions into `paid` carry an
explicit positive `paidAmount` and never drive the running balance below
zero (no `Math.max(0, ...)` clamping), records leaving `paid` have a
non-negative stored `paidAmount`, `paid`-to-`paid` adjustments never
clamp, and no record is deleted while `paid`.  Without these side
conditions the equality fails (see the counterexample). -/
theorem c1_balance_equals_event_log_sum (aid : String) (evs : List Ev)
    (hok : okRunB aid initSt evs = true) :
    (runEv aid initSt evs).balance = ledgerSum aid (runEv aid initSt evs).records :=
  (ledger_invariant_run aid evs initSt
    (by simp [initSt, keysNodup]) (by simp [initSt, ledgerSum]) hok).2

/-- Witness for C1: create a record of amount 50, then settle it as paid
with `paidAmount = 30`; the side conditions hold and the hook balance
(20) equals the event-log sum. -/
theorem c1_balance_equals_event_log_sum_witness :
    okRunB "a" initSt [Ev.create 0 docPending50, Ev.update 0 docPaid30] = true ∧
    (runEv "a" initSt [Ev.create 0 docPending50, Ev.update 0 docPaid30]).balance =
      ledgerSum "a" (runEv "a" initSt [Ev.create 0 docPending50, Ev.update 0 docPaid30]).records :=
  ⟨by decide, c1_balance_equals_event_log_sum "a" _ (by decide)⟩

/-- Counterexample to C1 as stated: create a record of amount 50, then
mark it paid with `paidAmount = 75`.  The hook computes
`Math.max(0, 50 - 75) = 0`, while the event-log sum is `50 - 75 = -25`,
so the account balance does not equal the independently recomputed sum. -/
theorem c1_counterexample :
    ¬ ((runEv "a" initSt [Ev.create 0 docPending50, Ev.update 0 docPaid75]).balance =
       ledgerSum "a" (runEv "a" initSt [Ev.create 0 docPending50, Ev.update 0 docPaid75]).records) := by
  decide

/-- Whatever else the `afterChange` hook's `updateData` carries, its
`billingInfo.accountBalance` is always the value `newBalanceFun`
computes (the lateness section reads the balance but never writes it). -/
theorem afterChangeAccount_balance (today : Int) (acc : Account) (op : Op)
    (doc : BDoc) (prev : Option BDoc) :
    (afterChangeAccount today acc op doc prev).1.billingInfo =
      { acc.billingInfo with
        accountBalance :=
          some (newBalanceFun (jsNum acc.billingInfo.accountBalance) op doc prev) } := by
  unfold afterChangeAccount
  cases doc.dueDate with
  | none => rfl
  | some dd =>
    dsimp only
    split_ifs <;> rfl

/-- An account with balance 0 and empty payment info. -/
def acctZero : Account := ⟨⟨some 0, 0⟩, ⟨none, none, none, none, 0⟩⟩

/-- A one-account store holding `acctZero` under the id `"a"`
(`payload.findByID` on the `accounts` collection). -/
def lookupA : String → Option Account :=
  fun s => if s = "a" then some acctZero else none

/-- An environment in which every external call succeeds except the
`payload.update` persisting the account. -/
def envPersistFail : HookEnv := ⟨false, true, false, none, false, none, false, false⟩

/-- C2 (amended): if persisting the account update fails during
reconciliation, the `afterChange` hook catches the error ("Don't throw -
billing record should still be saved"), the triggering billing-record
mutation still succeeds (`hookThrows = false`, so nothing is surfaced to
the caller), and no account write happens — the partial state "record
saved, account not updated" is exactly what results. -/
theorem c2_persist_failure_swallowed (env : HookEnv) (lookup : String → Option Account)
    (today : Int) (op : Op) (doc : BDoc) (prev : Option BDoc)
    (h : env.accountPersistFails = true) :
    (afterChangeHook env lookup today op doc prev).hookThrows = false ∧
    (afterChangeHook env lookup today op doc prev).accountWritten = none := by
  cases hacc : doc.account with
  | none => simp [afterChangeHook, hacc]
  | some aid =>
    cases hl : lookup aid with
    | none => simp [afterChangeHook, hacc, hl]
    | some acc =>
      simp only [afterChangeHook, hacc, hl]
      split_ifs with h1 h2 <;> simp_all

/-- Witness for C2: a concrete create against the existing account
`"a"` with the account persist failing — the hook still reports success
and writes nothing. -/
theorem c2_persist_failure_swallowed_witness :
    envPersistFail.accountPersistFails = true ∧
    ((afterChangeHook envPersistFail lookupA 0 .create docPending50 none).hookThrows = false ∧
     (afterChangeHook envPersistFail lookupA 0 .create docPending50 none).accountWritten = none) :=
  ⟨rfl, c2_persist_failure_swallowed envPersistFail lookupA 0 .create docPending50 none rfl⟩

/-- Counterexample to C2 as stated: the claim requires the failure to be
surfaced and the mutation rejected, but at this concrete input (record
of amount 50 for the existing account `"a"`, account persist failing)
the hook throws nothing — the mutation stands — and the account is left
unwritten: the partial state the claim calls unreachable is reached. -/
theorem c2_counterexample :
    (afterChangeHook envPersistFail lookupA 0 .create docPending50 none).hookThrows = false ∧
    (afterChangeHook envPersistFail lookupA 0 .create docPending50 none).accountWritten = none := by
  decide

/-- C4 (amended): there is no replay guard in the `afterChange` hook:
re-running the same create reconciliation applies its delta again, so
after the repeated run the balance equals the first run's balance plus
the record's amount (rather than staying equal to it). -/
theorem c4_rerun_create_adds_delta_again (today : Int) (acc : Account) (doc : BDoc) :
    (afterChangeAccount today
        (afterChangeAccount today acc .create doc none).1 .create doc none).1.billingInfo.accountBalance =
      some (jsNum ((afterChangeAccount today acc .create doc none).1.billingInfo.accountBalance)
        + jsNum doc.amount) := by
  have h1 := afterChangeAccount_balance today acc .create doc none
  have h2 := afterChangeAccount_balance today
    (afterChangeAccount today acc .create doc none).1 .create doc none
  have hbal : ∀ b : Int, ∀ d : BDoc,
      newBalanceFun b .create d none = b + jsNum d.amount := by
    intro b d
    simp [newBalanceFun]
  rw [show (afterChangeAccount today
      (afterChangeAccount today acc .create doc none).1 .create doc none).1.billingInfo.accountBalance =
      some (newBalanceFun
        (jsNum (afterChangeAccount today acc .create doc none).1.billingInfo.accountBalance)
        .create doc none) from congrArg BillingInfo.accountBalance h2]
  rw [hbal]

/-- Counterexample to C4 as stated: create a record of amount 50 against
the zero-balance account; running the same reconciliation twice yields
balance 100, not the 50 a replay-guarded reconciliation would keep. -/
theorem c4_counterexample :
    (afterChangeAccount 0 (afterChangeAccount 0 acctZero .create docPending50 none).1
        .create docPending50 none).1.billingInfo.accountBalance = some 100 ∧
    ¬ ((afterChangeAccount 0 (afterChangeAccount 0 acctZero .create docPending50 none).1
        .create docPending50 none).1.billingInfo.accountBalance =
      (afterChangeAccount 0 acctZero .create docPending50 none).1.billingInfo.accountBalance) := by
  decide

/-- C6 (amended): updating a record that stays `paid` while its
`paidAmount` changes adjusts the owning account's balance by the old
`paidAmount` minus the new one, in addition to the amount delta — but
clamped below at zero by the hook's `Math.max(0, ...)`.  In particular
a 75 → 50 change on a non-negative balance increases it by exactly 25
(see the witness). -/
theorem c6_paid_to_paid_adjustment (today : Int) (acc : Account) (doc p : BDoc)
    (hd : doc.status = .paid) (hp : p.status = .paid)
    (hne : jsNum doc.paidAmount - jsNum p.paidAmount ≠ 0) :
    (afterChangeAccount today acc .update doc (some p)).1.billingInfo.accountBalance =
      some (max 0 (jsNum acc.billingInfo.accountBalance
        + (jsNum doc.amount - jsNum p.amount)
        - (jsNum doc.paidAmount - jsNum p.paidAmount))) := by
  rw [show (afterChangeAccount today acc .update doc (some p)).1.billingInfo.accountBalance =
      some (newBalanceFun (jsNum acc.billingInfo.accountBalance) .update doc (some p)) from
    congrArg BillingInfo.accountBalance (afterChangeAccount_balance today acc .update doc (some p))]
  have h1 : ¬ (doc.status = BStatus.paid ∧ p.status ≠ BStatus.paid) := fun hc => hc.2 hp
  have h2 : ¬ (p.status = BStatus.paid ∧ doc.status ≠ BStatus.paid) := fun hc => hc.2 hd
  simp only [newBalanceFun, if_neg h1, if_neg h2, if_pos (And.intro hd hp), if_pos hne]

/-- The record of amount 100 settled as `paid` with `paidAmount = 75`. -/
def docPaidAmt75 : BDoc := ⟨some "a", some 100, .paid, some 75, none, none⟩

/-- The same record after correcting `paidAmount` down to 50. -/
def docPaidAmt50 : BDoc := ⟨some "a", some 100, .paid, some 50, none, none⟩

/-- An account carrying a balance of 10. -/
def acctTen : Account := ⟨⟨some 10, 0⟩, ⟨none, none, none, none, 0⟩⟩

/-- Witness for C6: correcting `paidAmount` from 75 to 50 (status stays
`paid`, amount unchanged) on a balance of 10 yields
`max 0 (10 + 0 - (50 - 75)) = 35` — an increase of exactly 25. -/
theorem c6_paid_to_paid_adjustment_witness :
    docPaidAmt50.status = BStatus.paid ∧ docPaidAmt75.status = BStatus.paid ∧
    jsNum docPaidAmt50.paidAmount - jsNum docPaidAmt75.paidAmount ≠ 0 ∧
    (afterChangeAccount 0 acctTen .update docPaidAmt50 (some docPaidAmt75)).1.billingInfo.accountBalance =
      some (max 0 (jsNum acctTen.billingInfo.accountBalance
        + (jsNum docPaidAmt50.amount - jsNum docPaidAmt75.amount)
        - (jsNum docPaidAmt50.paidAmount - jsNum docPaidAmt75.paidAmount))) :=
  ⟨rfl, rfl, by decide,
    c6_paid_to_paid_adjustment 0 acctTen docPaidAmt50 docPaidAmt75 rfl rfl (by decide)⟩

/-- Counterexample to C6's unqualified general clause: raising a paid
record's `paidAmount` from 30 to 75 on a zero-balance account should,
by the claim's arithmetic, move the balance by `30 - 75 = -45`; the
hook's `Math.max(0, ...)` clamps the result to 0 instead. -/
theorem c6_counterexample :
    (afterChangeAccount 0 acctZero .update docPaid75 (some docPaid30)).1.billingInfo.accountBalance ≠
      some (jsNum acctZero.billingInfo.accountBalance
        + (jsNum docPaid75.amount - jsNum docPaid30.amount)
        - (jsNum docPaid75.paidAmount - jsNum docPaid30.paidAmount)) := by
  decide

/-- C10: for a billing-record deletion whose account reference names an
existing account, the `afterDelete` hook persists exactly one change:
`billingInfo.accountBalance` drops by the record's amount — for every
record status (the hook never reads `doc.status`), with no clamping —
while `paymentInfo` (and with it the lateness flag) and the rest of
`billingInfo` are untouched. -/
theorem c10_afterDelete_unconditional_and_frame (lookup : String → Option Account)
    (aid : String) (acc : Account) (doc : BDoc)
    (hacc : doc.account = some aid) (hl : lookup aid = some acc) :
    afterDeleteHook false lookup doc =
      some ⟨⟨some (jsNum acc.billingInfo.accountBalance - jsNum doc.amount),
             acc.billingInfo.extra⟩,
            acc.paymentInfo⟩ := by
  simp [afterDeleteHook, hacc, hl]

/-- Witness for C10: deleting the record `docPaid30` (status `paid`,
amount 50) from account `"a"` (balance 0) writes balance `-50` and
leaves every other field alone — no clamp, no status guard. -/
theorem c10_afterDelete_unconditional_and_frame_witness :
    docPaid30.account = some "a" ∧ lookupA "a" = some acctZero ∧
    afterDeleteHook false lookupA docPaid30 =
      some ⟨⟨some (jsNum acctZero.billingInfo.accountBalance - jsNum docPaid30.amount),
             acctZero.billingInfo.extra⟩,
            acctZero.paymentInfo⟩ :=
  ⟨rfl, rfl, c10_afterDelete_unconditional_and_frame lookupA "a" acctZero docPaid30 rfl rfl⟩

/-- C3 (amended): the commercial lateness derivation is exactly the
claim's if-and-only-if — `late` iff `accountBalance > 0` and the
reference time is strictly past `nextBillingDate` plus the grace
period and the last payment is absent or strictly before
`nextBillingDate`; `current` in every other case, in particular
whenever the balance is 0 — once the grace period is taken as the
code's `gracePeriodDays || 5`, which replaces both an absent and a
zero `gracePeriodDays` by 5. -/
theorem c3_lateness_characterization (nbd : Int) (grace : Option Int) (bal : Int)
    (lpd : Option Int) (today : Int) :
    commercialIsLate nbd grace bal lpd today =
      claimLateness nbd (jsNumNZ grace 5) bal lpd today := by
  unfold commercialIsLate claimLateness
  by_cases hb : bal > 0
  · rw [if_pos hb]
    by_cases ht : today > nbd + jsNumNZ grace 5 * dayMs
    · by_cases hp : (match lpd with
        | none => true
        | some v => decide (v < nbd)) = true
      · rw [if_pos ⟨ht, hb, hp⟩, if_pos ⟨hb, ht, hp⟩]
      · rw [if_neg (fun hc => hp hc.2.2), if_neg (fun hc => hp hc.2.2)]
    · rw [if_neg (fun hc => ht hc.1), if_neg (fun hc => ht hc.2.1)]
  · rw [if_neg hb, if_neg (fun hc => hb hc.1)]

/-- Counterexample to C3 as stated: an account with balance 1, no last
payment, `nextBillingDate` at instant 0 and `gracePeriodDays = 0`,
evaluated three days later.  The claim's iff makes it `late`
(`3 days > 0 + 0`), but the code's `gracePeriodDays || 5` treats the
stored 0 as falsy and uses 5 days, yielding `current`. -/
theorem c3_counterexample :
    commercialIsLate 0 (some 0) 1 none (3 * dayMs) = LStatus.current ∧
    claimLateness 0 0 1 none (3 * dayMs) = LStatus.late := by
  decide

theorem startsWithL_append_left : ∀ (a b s : List Char),
    startsWithL (a ++ b) s = true → startsWithL a s = true
  | [], _, _, _ => rfl
  | c :: _, _, [], h => by simp [startsWithL] at h
  | c :: cs, b, d :: ds, h => by
    simp only [List.cons_append, startsWithL, Bool.and_eq_true, decide_eq_true_eq] at h ⊢
    exact ⟨h.1, startsWithL_append_left cs b ds h.2⟩

theorem containsSub_of_startsWith : ∀ (pat s : List Char),
    startsWithL pat s = true → containsSub pat s = true
  | pat, [], h => by
    cases pat with
    | nil => rfl
    | cons c cs => simp [startsWithL] at h
  | _, d :: ds, h => by
    simp only [containsSub, h, Bool.true_or]

/-- C9 (amended): a billing record created without a `billingNumber`
receives `'BILL-' + zeroPad(totalDocs + 1, 6)` (collection-wide count),
and an invoice for a borough with code `C` receives
`C + '-' + zeroPad(n + 1, 6)` where `n` counts the stored invoice
numbers with prefix `C-` — provided at most 1000 stored invoice numbers
contain `C` as a substring, since the hook's lookup is capped at
`limit: 1000` results. -/
theorem c9_sequential_identifiers (total : Nat) (code : List Char)
    (existing : List (List Char))
    (hcap : (existing.filter (fun s => containsSub code s)).length ≤ 1000) :
    nextBillingNumber total = "BILL-".toList ++ zeroPad (total + 1) 6 ∧
    nextInvoiceNumber code existing = claimInvoiceNumber code existing := by
  refine ⟨rfl, ?_⟩
  unfold nextInvoiceNumber claimInvoiceNumber
  rw [List.take_of_length_le hcap, List.filter_filter]
  have hfe : existing.filter
      (fun s => startsWithL (code ++ ['-']) s && containsSub code s) =
      existing.filter (fun s => startsWithL (code ++ ['-']) s) := by
    refine List.filter_congr ?_
    intro a _
    by_cases hs : startsWithL (code ++ ['-']) a = true
    · rw [hs, containsSub_of_startsWith code a (startsWithL_append_left code ['-'] a hs)]
      rfl
    · rw [Bool.not_eq_true] at hs
      rw [hs]
      rfl
  rw [hfe]

/-- Witness for C9: two stored invoice numbers for borough code `"BK"`,
one of them carrying the `BK-` prefix; the next number is `BK-000002`,
matching the claim's formula, and `BILL-` numbering continues from a
total of 41 records as `BILL-000042`. -/
theorem c9_sequential_identifiers_witness :
    ((["BK-000001".toList, "QN-000001".toList].filter
        (fun s => containsSub "BK".toList s)).length ≤ 1000) ∧
    nextBillingNumber 41 = "BILL-".toList ++ zeroPad 42 6 ∧
    nextInvoiceNumber "BK".toList ["BK-000001".toList, "QN-000001".toList] =
      claimInvoiceNumber "BK".toList ["BK-000001".toList, "QN-000001".toList] :=
  ⟨by decide, c9_sequential_identifiers 41 "BK".toList _ (by decide)⟩

/-- The 1001 distinct stored invoice numbers `C-000001` … `C-001001`
(the `invoiceNumber` field is `unique: true`). -/
def invoicesC1001 : List (List Char) :=
  (List.range 1001).map (fun i => ['C', '-'] ++ zeroPad (i + 1) 6)

set_option maxRecDepth 400000 in
/-- Counterexample to C9 as stated: with the 1001 distinct stored
invoice numbers `C-000001` … `C-001001`, the claim's formula yields
`C-001002` (count 1001 of the prefix `C-`), but the hook's
`limit: 1000` caps the fetched list, so the code produces `C-001001`. -/
theorem c9_counterexample :
    nextInvoiceNumber "C".toList invoicesC1001 ≠
      claimInvoiceNumber "C".toList invoicesC1001 := by
  decide

/-- The instant of 2024-03-15 (Scenario A's `billingDate`). -/
def billDate2024_03_15 : Int := dateToInstant ⟨2024, 3, 15⟩

/-- The instant of 2024-04-14 (= 2024-03-15 + 30 days). -/
def due2024_04_14 : Int := dateToInstant ⟨2024, 4, 14⟩

/-- Scenario A's incoming create data: amount 75, billing date
2024-03-15, no due date, the collection's default status `pending`. -/
def draftScenarioA : BDraft := ⟨none, some 75, some billDate2024_03_15, none, some .pending⟩

/-- Scenario A's stored record as `afterChange` sees it. -/
def docScenarioA : BDoc := ⟨some "a", some 75, .pending, none, none, some due2024_04_14⟩

/-- C7 (Scenario A): creating a billing record with amount 75 and
billing date 2024-03-15, no due date supplied, at a reference time no
later than 2024-04-14, defaults the due date to 2024-04-14 (billing
date + 30 days), leaves the status `pending`, and the reconciliation
takes the zero-balance account to balance 75. -/
theorem c7_scenario_a (count : Nat) (today : Int)
    (h : midnightOf today ≤ due2024_04_14) :
    (beforeChangeResidential count today .create draftScenarioA).dueDate =
      some due2024_04_14 ∧
    (beforeChangeResidential count today .create draftScenarioA).status =
      some BStatus.pending ∧
    (afterChangeAccount today acctZero .create docScenarioA none).1.billingInfo.accountBalance =
      some 75 := by
  have hdue : billDate2024_03_15 + 30 * dayMs = due2024_04_14 := by decide
  have hmid : midnightOf due2024_04_14 = due2024_04_14 := by decide
  have hbc : beforeChangeResidential count today .create draftScenarioA =
      { draftScenarioA with
        billingNumber := some ("BILL-".toList ++ zeroPad (count + 1) 6)
        dueDate := some due2024_04_14 } := by
    have hngt : ¬ midnightOf today > midnightOf (billDate2024_03_15 + 30 * dayMs) := by
      rw [hdue, hmid]
      omega
    simp [beforeChangeResidential, draftScenarioA, hdue, hngt]
    rw [hmid]
    exact h
  refine ⟨by rw [hbc], by rw [hbc]; rfl, ?_⟩
  rw [show (afterChangeAccount today acctZero .create docScenarioA none).1.billingInfo.accountBalance =
      some (newBalanceFun (jsNum acctZero.billingInfo.accountBalance) .create docScenarioA none) from
    congrArg BillingInfo.accountBalance
      (afterChangeAccount_balance today acctZero .create docScenarioA none)]
  decide

/-- Witness for C7: at reference time 2024-03-15 itself all hypotheses
hold and Scenario A's conclusions follow. -/
theorem c7_scenario_a_witness :
    midnightOf billDate2024_03_15 ≤ due2024_04_14 ∧
    ((beforeChangeResidential 0 billDate2024_03_15 .create draftScenarioA).dueDate =
        some due2024_04_14 ∧
      (beforeChangeResidential 0 billDate2024_03_15 .create draftScenarioA).status =
        some BStatus.pending ∧
      (afterChangeAccount billDate2024_03_15 acctZero .create docScenarioA
          none).1.billingInfo.accountBalance = some 75) :=
  ⟨by decide, c7_scenario_a 0 billDate2024_03_15 (by decide)⟩

/-- An environment in which every external call succeeds. -/
def envAllOk : HookEnv := ⟨false, false, false, none, false, none, false, false⟩

/-- An environment in which the whole notification path fails:
`createStripeInvoice` throws, both email attempts throw. -/
def envNotifyFail : HookEnv := ⟨false, false, true, none, true, none, true, true⟩

/-- A create of a record whose `account` relationship is missing (or
populated as an object rather than a string id). -/
def docNoAccount : BDoc := ⟨none, some 50, .pending, none, none, none⟩

/-- C8 (amended): provided the record references an existing account
and the reconciliation writes succeed (the overdue write-back and the
account persist do not fail), the invoice-and-email block is entered
exactly when the mutation is a create whose record status is not
`cancelled`; and for every combination of notification-path outcomes
(Stripe invoice creation, invoice-id write-back, payment-link lookup,
both email attempts) the hook lets no exception escape and the
already-applied account reconciliation stands unchanged. -/
theorem c8_notification_trigger_and_isolation (env : HookEnv)
    (lookup : String → Option Account) (today : Int) (op : Op) (doc : BDoc)
    (prev : Option BDoc) (aid : String) (acc : Account)
    (hacc : doc.account = some aid) (hl : lookup aid = some acc)
    (how : env.overdueWriteFails = false) (hap : env.accountPersistFails = false) :
    (afterChangeHook env lookup today op doc prev).hookThrows = false ∧
    (afterChangeHook env lookup today op doc prev).accountWritten =
      some (afterChangeAccount today acc op doc prev).1 ∧
    ((afterChangeHook env lookup today op doc prev).notifyAttempted = true ↔
      (op = .create ∧ doc.status ≠ .cancelled)) := by
  simp only [afterChangeHook, hacc, hl, how, hap]
  by_cases hc : op = Op.create ∧ doc.status ≠ BStatus.cancelled
  · simp [hc]
  · simp [hc]

/-- Witness for C8: a create of `docPending50` against the existing
account `"a"` with the entire notification path failing — the
notification is attempted (create, not cancelled), nothing escapes, and
the reconciled account is written. -/
theorem c8_notification_trigger_and_isolation_witness :
    docPending50.account = some "a" ∧ lookupA "a" = some acctZero ∧
    envNotifyFail.overdueWriteFails = false ∧
    envNotifyFail.accountPersistFails = false ∧
    ((afterChangeHook envNotifyFail lookupA 0 .create docPending50 none).hookThrows = false ∧
     (afterChangeHook envNotifyFail lookupA 0 .create docPending50 none).accountWritten =
       some (afterChangeAccount 0 acctZero .create docPending50 none).1 ∧
     ((afterChangeHook envNotifyFail lookupA 0 .create docPending50 none).notifyAttempted = true ↔
       (Op.create = Op.create ∧ docPending50.status ≠ BStatus.cancelled))) :=
  ⟨rfl, rfl, rfl, rfl,
    c8_notification_trigger_and_isolation envNotifyFail lookupA 0 .create docPending50 none
      "a" acctZero rfl rfl rfl rfl⟩

/-- Counterexample to C8's "exactly when" as stated: a successful
create of a non-`cancelled` record whose `account` reference is not a
string id — the hook returns success (the record is saved) but never
reaches the notification block. -/
theorem c8_counterexample :
    (afterChangeHook envAllOk lookupA 0 .create docNoAccount none).hookThrows = false ∧
    docNoAccount.status ≠ BStatus.cancelled ∧
    (afterChangeHook envAllOk lookupA 0 .create docNoAccount none).notifyAttempted = false := by
  decide

/-- Strict lexicographic order on (year, month) pairs. -/
def ymLt (a b : Int × Nat) : Prop := a.1 < b.1 ∨ (a.1 = b.1 ∧ a.2 < b.2)

/-- Lexicographic order on (year, month) pairs. -/
def ymLe (a b : Int × Nat) : Prop := a.1 < b.1 ∨ (a.1 = b.1 ∧ a.2 ≤ b.2)

theorem ymLt_ymLe_trans {a b c : Int × Nat} (h1 : ymLt a b) (h2 : ymLe b c) : ymLt a c := by
  unfold ymLt at h1 ⊢
  unfold ymLe at h2
  omega

theorem normMonth_ymLt (y : Int) (m k : Nat) (hk : 1 ≤ k) :
    ymLt (y, m) (normMonth y (m + k)) := by
  unfold normMonth ymLt
  split_ifs <;> simp <;> omega

theorem normDay_step {y : Int} {m d : Nat} (h : daysInMonth y m < d) :
    normDay y m d =
      normDay (normMonth y (m + 1)).1 (normMonth y (m + 1)).2 (d - daysInMonth y m) := by
  rw [normDay]
  exact dif_pos h

theorem normDay_base {y : Int} {m d : Nat} (h : ¬ daysInMonth y m < d) :
    normDay y m d = ⟨y, m, d⟩ := by
  rw [normDay]
  exact dif_neg h

theorem normDay_ym : ∀ (d : Nat) (y : Int) (m : Nat),
    ymLe (y, m) ((normDay y m d).year, (normDay y m d).month) := by
  intro d
  induction d using Nat.strong_induction_on with
  | _ d ih =>
    intro y m
    by_cases h : daysInMonth y m < d
    · rw [normDay_step h]
      have hlt : d - daysInMonth y m < d :=
        Nat.sub_lt (Nat.lt_of_lt_of_le (daysInMonth_pos y m) (Nat.le_of_lt h))
          (daysInMonth_pos y m)
      have h2 := ih (d - daysInMonth y m) hlt (normMonth y (m + 1)).1 (normMonth y (m + 1)).2
      have h1 : ymLe (y, m) (normMonth y (m + 1)) := by
        have := normMonth_ymLt y m 1 (le_refl 1)
        unfold ymLt at this
        unfold ymLe
        omega
      unfold ymLe at h1 h2 ⊢
      omega
    · rw [normDay_base h]
      exact Or.inr ⟨rfl, Nat.le_refl _⟩

theorem normDay_ym_strict {y : Int} {m d : Nat} (h : daysInMonth y m < d) :
    ymLt (y, m) ((normDay y m d).year, (normDay y m d).month) := by
  rw [normDay_step h]
  exact ymLt_ymLe_trans (normMonth_ymLt y m 1 (le_refl 1)) (normDay_ym _ _ _)

theorem not_dateLt_of_ymLt {t b : Date3}
    (h : ymLt (t.year, t.month) (b.year, b.month)) : ¬ dateLt b t := by
  unfold ymLt at h
  unfold dateLt
  omega

theorem advanceCadence_ymLt (c : CadenceMQA) (y : Int) (m d : Nat) :
    ymLt (y, m)
      ((advanceCadence c ⟨y, m, d⟩).year, (advanceCadence c ⟨y, m, d⟩).month) := by
  cases c with
  | monthly =>
    exact ymLt_ymLe_trans (normMonth_ymLt y m 1 (le_refl 1)) (normDay_ym d _ _)
  | quarterly =>
    exact ymLt_ymLe_trans (normMonth_ymLt y m 3 (by omega)) (normDay_ym d _ _)
  | annually =>
    have h1 : ymLt (y, m) (y + 1, m) := Or.inl (by omega)
    exact ymLt_ymLe_trans h1 (normDay_ym d (y + 1) m)

/-- C5: for cadence monthly, quarterly or annually the computed next
billing date is the result of setting the day-of-month to
`billingDayOfMonth` in the month containing the reference date (with
JS's forward day-overflow normalization) and, if that date is strictly
before the reference date, advancing by one cadence period (1, 3 or 12
months); and the result is never a date in the past relative to the
reference date. -/
theorem c5_next_billing_date_not_past (c : CadenceMQA) (d : Nat) (t : Date3) :
    nextBillingDateMQA c d t =
      (if dateLt (setDayOfMonth t d) t then advanceCadence c (setDayOfMonth t d)
       else setDayOfMonth t d) ∧
    ¬ dateLt (nextBillingDateMQA c d t) t := by
  refine ⟨rfl, ?_⟩
  unfold nextBillingDateMQA
  by_cases hlt : dateLt (setDayOfMonth t d) t
  · rw [if_pos hlt]
    by_cases hov : daysInMonth t.year t.month < d
    · exact absurd hlt (not_dateLt_of_ymLt (normDay_ym_strict hov))
    · rw [show setDayOfMonth t d = ⟨t.year, t.month, d⟩ from normDay_base hov]
      exact not_dateLt_of_ymLt (advanceCadence_ymLt c t.year t.month d)
  · rw [if_neg hlt]
    exact hlt
